import Mathlib

/-!
Shallow embedding of the two model files of the fekstr/ml4h repository:
project1/code/models/autoencoder_tree.py and
project1/code/models/vanilla_cnn.py, together with theorems settling the
specification claims about them.

Conventions of the embedding:
* numpy arrays and torch tensors carrying data are lists of rationals
  (a sample of shape (m, 1) is a list of m singleton lists);
* external library calls (the dataset loaders, sklearn train test split,
  the debug subsampling and upsampling utilities) become function
  parameters of the embedded functions;
* python exceptions become the Except monad;
* in-place tensor mutation (unsqueeze_) becomes explicit state passing on
  the tensor shape.
-/

namespace ML4H

/-! ### Module-level constants of autoencoder_tree.py (lines 13-20) -/

def DEBUG : Bool := false

def UPSAMPLE : Bool := false

def VALIDATION_SPLIT : ℚ := 1 / 10

def BATCH_SIZE : Nat := 128

def EPOCHS : Nat := 3

def EARLY_STOPPING_PATIENCE : Nat := 2

def FILTER_SIZE : Nat := 3

/-! ### AutoencoderTree._pad (autoencoder_tree.py line 68-69)

np.append(X, np.zeros((X.shape[0], 1, 1)), axis=1): for each of the
X.shape[0] samples, one extra timestep equal to the single-channel zero
row [0] is appended along axis 1.  np.append allocates a fresh array, so
the original X is left unmodified; the pure embedding reflects that. -/

/-- A sample is a list of timesteps, each timestep a list of channel
values (shape (m, 1) means m timesteps of one channel each). -/
abbrev Sample : Type := List (List ℚ)

def pad (X : List Sample) : List Sample :=
  X.map (fun s => s ++ [[0]])

/-! ### AutoencoderTree.load_data (autoencoder_tree.py lines 71-123)

The two dataset loaders (datasets.load_arrhythmia_dataset and
datasets.load_PTB_dataset), sklearn.model_selection.train_test_split,
utils.get_debug_data and utils.upsample are external to the two source
files; they enter the embedding as parameters.  train_test_split splits
the parallel arrays X and y sample-wise, so the embedding pairs them. -/

/-- The four arrays returned by one dataset loader:
X, y, X_test, y_test. -/
structure LoaderOut (β : Type) where
  X : List Sample
  y : List β
  X_test : List Sample
  y_test : List β

/-- The arrays stored on self by load_data (lines 114-123). -/
structure AEData (β : Type) where
  X_train : List Sample
  y_train : List β
  X_valid : List Sample
  y_valid : List β
  X_test : List Sample
  y_test : List β
  X_train_full : List Sample
  y_train_full : List β

/-- Modelled from the spec: sklearn train_test_split returns a
train/validation split of the (paired) samples; its type here. -/
abbrev SplitFn (β : Type) : Type :=
  List (Sample × β) → List (Sample × β) × List (Sample × β)

/-- Modelled from the spec: utils.get_debug_data subsamples the six
arrays (only reached when DEBUG is true). -/
abbrev DebugFn (β : Type) : Type :=
  List Sample → List β → List Sample → List β → List Sample → List β →
    (List Sample × List β × List Sample × List β × List Sample × List β)

/-- Modelled from the spec: utils.upsample rebalances the train arrays
(only reached when UPSAMPLE is true). -/
abbrev UpsampleFn (β : Type) : Type :=
  List Sample → List β → List Sample × List β

/-- The body of load_data shared by both dataset branches
(lines 102-123): pad, split into train/validation, apply the DEBUG and
UPSAMPLE options, store everything. -/
def loadDataBody {β : Type} (split : SplitFn β) (debugFn : DebugFn β)
    (upsampleFn : UpsampleFn β) (mit ptb : LoaderOut β)
    (X : List Sample) (y : List β) (X_test0 : List Sample)
    (y_test0 : List β) : AEData β :=
  let X := pad X
  let X_test := pad X_test0
  let X_mit := pad mit.X
  let X_ptb := pad ptb.X
  let tv := split (X.zip y)
  let X_train := tv.1.map Prod.fst
  let y_train := tv.1.map Prod.snd
  let X_valid := tv.2.map Prod.fst
  let y_valid := tv.2.map Prod.snd
  let dbg :=
    if DEBUG then debugFn X_train y_train X_valid y_valid X_test y_test0
    else (X_train, y_train, X_valid, y_valid, X_test, y_test0)
  let X_train := dbg.1
  let y_train := dbg.2.1
  let X_valid := dbg.2.2.1
  let y_valid := dbg.2.2.2.1
  let X_test := dbg.2.2.2.2.1
  let y_test := dbg.2.2.2.2.2
  let up := if UPSAMPLE then upsampleFn X_train y_train
            else (X_train, y_train)
  { X_train := up.1
    y_train := up.2
    X_valid := X_valid
    y_valid := y_valid
    X_test := X_test
    y_test := y_test
    X_train_full := X_mit ++ X_ptb
    y_train_full := mit.y ++ ptb.y }

/-- AutoencoderTree.load_data (lines 93-123): dataset-name dispatch, then
the shared body.  An invalid dataset name raises
a ValueError mentioning the dataset name. -/
def load_data {β : Type} (split : SplitFn β) (debugFn : DebugFn β)
    (upsampleFn : UpsampleFn β) (mit ptb : LoaderOut β)
    (dataset : String) : Except (String × String) (AEData β) :=
  if dataset = "mithb" then
    Except.ok (loadDataBody split debugFn upsampleFn mit ptb
      mit.X mit.y mit.X_test mit.y_test)
  else if dataset = "ptbdb" then
    Except.ok (loadDataBody split debugFn upsampleFn mit ptb
      ptb.X ptb.y ptb.X_test ptb.y_test)
  else
    Except.error (dataset, "is not a valid dataset")

/-! ### AutoencoderTree.train (autoencoder_tree.py lines 125-141)

The keyword arguments of the keras fit call on line 128-132.  Keras
callbacks (such as EarlyStopping, which would carry a patience) would be
passed through a callbacks argument; the source passes none. -/

/-- A keras callback as it would be configured: what it monitors, its
mode, and its patience (none when the argument is omitted and the
library default applies). -/
structure CallbackSpec where
  monitor : String
  mode : String
  patience : Option Nat
deriving DecidableEq

/-- The arguments of a keras-style fit call. -/
structure FitArgs where
  batch_size : Nat
  shuffle : Bool
  epochs : Nat
  callbacks : List CallbackSpec
deriving DecidableEq

/-- The fit call of AutoencoderTree.train (lines 128-132):
batch_size=BATCH_SIZE, shuffle=True, epochs=EPOCHS, and no callbacks
argument. -/
def aeFitArgs : FitArgs :=
  { batch_size := BATCH_SIZE
    shuffle := true
    epochs := EPOCHS
    callbacks := [] }

/-! ### AutoencoderTree.predict (autoencoder_tree.py lines 143-146) -/

/-- The parts of an AutoencoderTree instance that predict reads and
writes: the featurizer (self.featurizer.predict), the classifier
(self.clf.predict and self.clf.predict_proba — external sklearn model
objects, hence function parameters), the stored test set, and the
prediction attributes (none before predict has run). -/
structure AEPredictState (α β γ δ : Type) where
  featurize : α → β
  clf_predict : β → γ
  clf_predict_proba : β → δ
  X_test : α
  y_pred : Option γ
  y_pred_proba : Option δ

/-- AutoencoderTree.predict: featurize X_test, then store the classifier
predictions and probabilities on self. -/
def AEPredictState.predict {α β γ δ : Type} (m : AEPredictState α β γ δ) :
    AEPredictState α β γ δ :=
  let feats := m.featurize m.X_test
  { m with
    y_pred := some (m.clf_predict feats)
    y_pred_proba := some (m.clf_predict_proba feats) }

/-! ### vanillaCNN.__init__ (vanilla_cnn.py lines 20-41) -/

/-- One module of the sequential net: a Conv1d with its channel counts
and kernel size, or a ReLU. -/
inductive ModuleKind where
  | conv (inC outC kernel : Nat)
  | relu
deriving DecidableEq

/-- The loop of vanillaCNN.__init__ (lines 25-31): for each
i in range(len(channels) - 1), add Conv1d(channels[i], channels[i+1],
kernel_size) and then a ReLU. -/
def buildNet (channels : List Nat) (kernel_size : Nat) : List ModuleKind :=
  (List.range (channels.length - 1)).flatMap fun i =>
    [ModuleKind.conv (channels.getD i 0) (channels.getD (i + 1) 0)
      kernel_size,
     ModuleKind.relu]

/-- The output features of the final linear head (lines 35-39):
1 when no_classes == 2, no_classes otherwise. -/
def fcOutFeatures (no_classes : Nat) : Nat :=
  if no_classes = 2 then 1 else no_classes

/-- The vanillaCNN model object as constructed by __init__: the
sequential net, the linear head dimensions, and the class count. -/
structure VanillaModel where
  net : List ModuleKind
  fc_in : Nat
  fc_out : Nat
  no_classes : Nat
deriving DecidableEq

/-- vanillaCNN(channels, kernel_size, output_size, no_classes). -/
def mkVanillaCNN (channels : List Nat) (kernel_size output_size no_classes : Nat) :
    VanillaModel :=
  { net := buildNet channels kernel_size
    fc_in := output_size
    fc_out := fcOutFeatures no_classes
    no_classes := no_classes }

/-! ### train_vanilla_cnn (vanilla_cnn.py lines 101-153) -/

/-- What train_vanilla_cnn returns on line 153: the model and the
trainer (return model, trainer). -/
inductive RetKind where
  | model
  | trainer
  | predictions
deriving DecidableEq

/-- The pl.Trainer configuration of lines 142-148. -/
structure TrainerSpec where
  max_epochs : Nat
  callbacks : List CallbackSpec
deriving DecidableEq

/-- Everything observable about one call of train_vanilla_cnn: the
constructed model, the DataLoader batch sizes (lines 139-140), the
trainer configuration, and the kinds of the two returned values. -/
structure VanillaRun where
  model : VanillaModel
  train_batch_size : Nat
  train_shuffle : Bool
  val_batch_size : Nat
  trainer : TrainerSpec
  ret : RetKind × RetKind
deriving DecidableEq

/-- The default of the max_epochs argument (line 106). -/
def MAX_EPOCHS_DEFAULT : Nat := 15

/-- train_vanilla_cnn (lines 101-153): dataset dispatch constructing the
model with 5 classes for mithb and 2 for ptbdb (output size
channels[-1] * cnn_output_size), ValueError("Incorrect dataset!") on
anything else; then DataLoaders with batch sizes 32 (train, shuffled)
and 64 (validation), a Trainer with max_epochs and an
EarlyStopping(monitor="val_loss", mode="min") callback with no explicit
patience argument, and the return of model and trainer. -/
def train_vanilla_cnn (channels : List Nat)
    (kernel_size cnn_output_size : Nat) (dataset : String)
    (max_epochs : Nat) : Except String VanillaRun :=
  if dataset = "mithb" then
    Except.ok
      { model := mkVanillaCNN channels kernel_size
          (channels.getLastD 0 * cnn_output_size) 5
        train_batch_size := 32
        train_shuffle := true
        val_batch_size := 64
        trainer :=
          { max_epochs := max_epochs
            callbacks := [{ monitor := "val_loss", mode := "min",
                            patience := none }] }
        ret := (RetKind.model, RetKind.trainer) }
  else if dataset = "ptbdb" then
    Except.ok
      { model := mkVanillaCNN channels kernel_size
          (channels.getLastD 0 * cnn_output_size) 2
        train_batch_size := 32
        train_shuffle := true
        val_batch_size := 64
        trainer :=
          { max_epochs := max_epochs
            callbacks := [{ monitor := "val_loss", mode := "min",
                            patience := none }] }
        ret := (RetKind.model, RetKind.trainer) }
  else
    Except.error "Incorrect dataset!"

/-! ### Semantics of the sequential net on data

The torch Conv1d and ReLU act on each sample of a batch independently, so
a batch application of the net is the per-sample application mapped over
the batch.  A per-sample input is channels × time. -/

/-- Concrete weights of one Conv1d layer: w is outChannels × inChannels
× kernel, b is the per-output-channel bias, k the kernel size. -/
structure ConvWeights where
  w : List (List (List ℚ))
  b : List ℚ
  k : Nat

/-- Dot product of two equal-length lists. -/
def dotQ (a c : List ℚ) : ℚ :=
  (List.zipWith (fun x y => x * y) a c).sum

/-- One Conv1d layer on one sample (valid convolution, stride 1, no
padding): output channel o at position t is
b o + sum over input channels i of dot (w o i) (window of x i at t). -/
def conv1dSample (cw : ConvWeights) (x : List (List ℚ)) : List (List ℚ) :=
  let T := ((x.headD []).length + 1) - cw.k
  List.zipWith
    (fun wrow bo =>
      (List.range T).map fun t =>
        bo + (List.zipWith (fun wi xi => dotQ wi ((xi.drop t).take cw.k))
          wrow x).sum)
    cw.w cw.b

/-- ReLU on one sample, elementwise. -/
def reluSample (x : List (List ℚ)) : List (List ℚ) :=
  x.map (List.map (fun v => max v 0))

/-- One layer of the sequential net with its parameters (buildNet gives
the layer shapes; torch initializes the conv weights). -/
inductive LayerSpec where
  | convL (cw : ConvWeights)
  | reluL

/-- Apply one layer to one sample. -/
def applyLayer : LayerSpec → List (List ℚ) → List (List ℚ)
  | LayerSpec.convL cw, x => conv1dSample cw x
  | LayerSpec.reluL, x => reluSample x

/-- nn.Sequential on one sample: the layers in order. -/
def applyNet (net : List LayerSpec) (x : List (List ℚ)) : List (List ℚ) :=
  net.foldl (fun a l => applyLayer l a) x

/-- nn.Sequential on a batch: each layer (Conv1d, ReLU) acts on the
samples of the batch independently, so the batch result is the
per-sample result mapped over the batch. -/
def applyNetBatch (net : List LayerSpec) (batch : List (List (List ℚ))) :
    List (List (List ℚ)) :=
  batch.map (applyNet net)

/-! ### get_cnn_outputs (vanilla_cnn.py lines 156-173)

DataLoader(dataset, batch_size=64) without shuffling yields the samples
in order, in consecutive groups of 64 (the last group possibly
shorter). -/

/-- The consecutive groups of at most n samples a non-shuffling
DataLoader with batch_size n yields (n is 64 at the call site, so the
n = 0 degenerate case is never reached). -/
def batches {α : Type} (n : Nat) : List α → List (List α)
  | [] => []
  | x :: xs => (x :: xs.take (n - 1)) :: batches n (xs.drop (n - 1))
termination_by l => l.length
decreasing_by
  simp only [List.length_cons]
  exact Nat.lt_succ_of_le (List.length_drop .. ▸ Nat.sub_le _ _)

/-- get_cnn_outputs (lines 156-173): batch the samples in groups of 64;
for each batch, unsqueeze each sample to a single input channel, apply
model.net, and flatten each output sample from the start dimension 1;
concatenate the per-batch results along dimension 0. -/
def get_cnn_outputs (net : List LayerSpec) (X : List (List ℚ)) :
    List (List ℚ) :=
  ((batches 64 X).map fun b =>
    (applyNetBatch net (b.map fun s => [s])).map List.flatten).flatten

/-- The same computation without batching: model.net applied to all of X
at once, each output sample flattened. -/
def cnn_outputs_unbatched (net : List LayerSpec) (X : List (List ℚ)) :
    List (List ℚ) :=
  (applyNetBatch net (X.map fun s => [s])).map List.flatten

/-! ### Early stopping (vanilla_cnn.py lines 142-151)

Modelled from the spec: the Trainer.fit loop and the EarlyStopping
callback are pytorch_lightning library code, not part of the two source
files.  The glossary defines early stopping as halting training once a
monitored validation metric stops improving for a set number of epochs.
The model below runs epochs consuming a stream of monitored val_loss
values (mode min: an epoch improves when its loss is strictly below the
best so far), tracking the count of epochs since the last improvement,
and stops after the epoch on which that count reaches the patience, or
when max_epochs epochs have run. -/

/-- One epoch of early-stopping bookkeeping on the state
(best value so far, epochs since last improvement). -/
def esStep (st : Option ℚ × Nat) (l : ℚ) : Option ℚ × Nat :=
  match st.1 with
  | none => (some l, 0)
  | some b => if l < b then (some l, 0) else (st.1, st.2 + 1)

/-- The epochs-since-improvement counter after observing a list of
monitored values. -/
def waitAfter (losses : List ℚ) : Nat :=
  (losses.foldl esStep (none, 0)).2

/-- The training loop: runs through the monitored values with at most
fuel epochs, stopping after an epoch that exhausts the patience.
Returns the number of epochs actually run. -/
def epochsRunAux (patience : Nat) : List ℚ → Nat → Option ℚ × Nat → Nat
  | _, 0, _ => 0
  | [], _, _ => 0
  | l :: ls, fuel + 1, st =>
    let st1 := esStep st l
    if patience ≤ st1.2 then 1 else 1 + epochsRunAux patience ls fuel st1

/-- The number of training epochs a fit loop with early stopping runs:
at most max_epochs, stopping early on exhausted patience. -/
def epochsRun (losses : List ℚ) (patience max_epochs : Nat) : Nat :=
  epochsRunAux patience losses max_epochs (none, 0)

/-! ### The binary special case (vanilla_cnn.py lines 35-39, 62-68,
85-94) -/

/-- Which loss function a step uses. -/
inductive LossFn where
  | binary_cross_entropy
  | cross_entropy
deriving DecidableEq

/-- The loss selection of training_step (lines 62-66) and
validation_step: binary cross-entropy on the sigmoid when
no_classes == 2, categorical cross-entropy otherwise. -/
def stepLoss (no_classes : Nat) : LossFn :=
  if no_classes = 2 then LossFn.binary_cross_entropy
  else LossFn.cross_entropy

/-- torch.sigmoid, with the exponential passed as a parameter (the
embedding needs only its positivity) and the scalar field generic so
that the definition stays executable (instantiate at ℝ with Real.exp
for the actual model). -/
def sigmoid {α : Type} [LinearOrderedField α] (e : α → α) (x : α) : α :=
  1 / (1 + e (-x))

/-- predict_step (lines 85-94): the forward output, passed through a
sigmoid elementwise when no_classes == 2 and returned raw otherwise. -/
def predict_step_out {α : Type} [LinearOrderedField α] (e : α → α)
    (no_classes : Nat) (pred : List α) : List α :=
  if no_classes = 2 then pred.map (sigmoid e) else pred

/-! ### In-place unsqueeze (vanilla_cnn.py lines 43-54)

forward and training_step call x.unsqueeze_(1), the in-place variant:
the tensor of the caller itself gains a dimension of size 1 at axis 1.  The
mutation is embedded as explicit state passing on the tensor shape (the
underlying data is only reinterpreted, not changed). -/

/-- Shape effect of Tensor.unsqueeze_(dim). -/
def unsqueezeShape (dim : Nat) (s : List Nat) : List Nat :=
  s.insertIdx dim 1

/-- Shape of the tensor x of the caller after vanillaCNN.forward(x)
(line 44: x.unsqueeze_(1)). -/
def forwardShapeEffect (s : List Nat) : List Nat :=
  unsqueezeShape 1 s

/-- Shape of the batch tensor x of the caller after
vanillaCNN.training_step (line 54: x.unsqueeze_(1)). -/
def trainingStepShapeEffect (s : List Nat) : List Nat :=
  unsqueezeShape 1 s

/-! ## Helper lemmas -/

/-- Length of a flatMap producing two elements per index. -/
theorem pairFlatMap_length {α : Type} (m : Nat) (f g : Nat → α) :
    ((List.range m).flatMap fun i => [f i, g i]).length = 2 * m := by
  induction m with
  | zero => simp
  | succ n ih =>
    rw [List.range_succ, List.flatMap_append]
    simp only [List.length_append, ih]
    simp
    omega

/-- Even positions of a flatMap producing two elements per index. -/
theorem pairFlatMap_getElem_even {α : Type} (m : Nat) (f g : Nat → α)
    (i : Nat) (h : i < m) :
    ((List.range m).flatMap fun j => [f j, g j])[2 * i]? = some (f i) := by
  induction m with
  | zero => omega
  | succ n ih =>
    rw [List.range_succ, List.flatMap_append]
    rcases Nat.lt_or_ge i n with hi | hi
    · rw [List.getElem?_append_left (by rw [pairFlatMap_length]; omega)]
      exact ih hi
    · have hin : i = n := by omega
      subst hin
      rw [List.getElem?_append_right (by rw [pairFlatMap_length])]
      rw [pairFlatMap_length]
      simp

/-- Odd positions of a flatMap producing two elements per index. -/
theorem pairFlatMap_getElem_odd {α : Type} (m : Nat) (f g : Nat → α)
    (i : Nat) (h : i < m) :
    ((List.range m).flatMap fun j => [f j, g j])[2 * i + 1]? = some (g i) := by
  induction m with
  | zero => omega
  | succ n ih =>
    rw [List.range_succ, List.flatMap_append]
    rcases Nat.lt_or_ge i n with hi | hi
    · rw [List.getElem?_append_left (by rw [pairFlatMap_length]; omega)]
      exact ih hi
    · have hin : i = n := by omega
      subst hin
      rw [List.getElem?_append_right (by rw [pairFlatMap_length]; omega)]
      rw [pairFlatMap_length]
      have h1 : 2 * i + 1 - 2 * i = 1 := by omega
      rw [h1]
      simp

/-- Concatenating the batches gives back the original sample list. -/
theorem flatten_batches {α : Type} (n : Nat) :
    ∀ l : List α, (batches n l).flatten = l
  | [] => by simp [batches]
  | x :: xs => by
    rw [batches]
    simp only [List.flatten_cons]
    rw [flatten_batches n (xs.drop (n - 1))]
    simp [List.take_append_drop]
termination_by l => l.length
decreasing_by
  simp only [List.length_cons]
  exact Nat.lt_succ_of_le (List.length_drop .. ▸ Nat.sub_le _ _)

/-- The early-stopping loop never runs more epochs than its fuel. -/
theorem epochsRunAux_le (p : Nat) (ls : List ℚ) :
    ∀ (fuel : Nat) (st : Option ℚ × Nat), epochsRunAux p ls fuel st ≤ fuel := by
  induction ls with
  | nil =>
    intro fuel st
    cases fuel <;> simp [epochsRunAux]
  | cons l ls ih =>
    intro fuel st
    cases fuel with
    | zero => simp [epochsRunAux]
    | succ f =>
      simp only [epochsRunAux]
      split

      · omega
      · have := ih f (esStep st l)
        omega

/-- Once the patience is exhausted after epoch k+1, the early-stopping
loop runs at most k+1 epochs. -/
theorem epochsRunAux_stop (p : Nat) (ls : List ℚ) :
    ∀ (fuel : Nat) (st : Option ℚ × Nat) (k : Nat),
      p ≤ ((ls.take (k + 1)).foldl esStep st).2 →
      epochsRunAux p ls fuel st ≤ k + 1 := by
  induction ls with
  | nil =>
    intro fuel st k _
    cases fuel <;> simp [epochsRunAux]
  | cons l ls ih =>
    intro fuel st k h
    cases fuel with
    | zero => simp [epochsRunAux]
    | succ f =>
      simp only [epochsRunAux]
      by_cases hstop : p ≤ (esStep st l).2
      · simp only [hstop, if_true]
        omega
      · simp only [hstop, if_false]
        cases k with
        | zero =>
          exfalso
          apply hstop
          simpa [List.take] using h
        | succ j =>
          have h2 : p ≤ ((ls.take (j + 1)).foldl esStep (esStep st l)).2 := by
            simpa [List.take] using h
          have := ih f (esStep st l) j h2
          omega

/-! ## Claims -/

/-- Claim C8: for every array X of shape (n, m, 1), pad returns an array
of shape (n, m+1, 1) whose first m timesteps of every sample equal the
corresponding entries of X and whose appended last timestep is the zero
row; the pure embedding reflects that np.append leaves X itself
unmodified. -/
theorem C8_pad_appends_zero (X : List Sample) (m : Nat)
    (hlen : ∀ s ∈ X, s.length = m)
    (hch : ∀ s ∈ X, ∀ r ∈ s, r.length = 1) :
    (pad X).length = X.length ∧
    List.Forall₂ (fun s t =>
      t.length = m + 1 ∧ t.take m = s ∧ t.getLast? = some [0] ∧
      ∀ r ∈ t, r.length = 1) X (pad X) := by
  refine ⟨by simp [pad], ?_⟩
  induction X with
  | nil => simp [pad]
  | cons s X ih =>
    have hs : s.length = m := hlen s (by simp)
    refine List.Forall₂.cons ⟨?_, ?_, ?_, ?_⟩ ?_
    · simp [hs]
    · rw [← hs, List.take_left]
    · exact List.getLast?_concat _
    · intro r hr
      rcases List.mem_append.mp hr with hr | hr
      · exact hch s (by simp) r hr
      · simp only [List.mem_singleton] at hr
        simp [hr]
    · exact ih (fun t ht => hlen t (by simp [ht]))
        (fun t ht => hch t (by simp [ht]))

/-- Claim C8 witness at a concrete array of shape (2, 2, 1). -/
theorem C8_pad_appends_zero_witness :
    (pad [[[1], [2]], [[3], [4]]]).length = 2 ∧
    List.Forall₂ (fun s t =>
      t.length = 2 + 1 ∧ t.take 2 = s ∧ t.getLast? = some [0] ∧
      ∀ r ∈ t, r.length = 1) [[[1], [2]], [[3], [4]]]
      (pad [[[1], [2]], [[3], [4]]]) :=
  C8_pad_appends_zero [[[1], [2]], [[3], [4]]] 2 (by decide) (by decide)

/-- Claim C1: both entry points raise a ValueError exactly when the
dataset name is neither mithb nor ptbdb, and raise no dataset-name
error on those two names. -/
theorem C1_dataset_validation {β : Type} (split : SplitFn β)
    (debugFn : DebugFn β) (upsampleFn : UpsampleFn β)
    (mit ptb : LoaderOut β) (d : String) (channels : List Nat)
    (kernel_size cnn_output_size max_epochs : Nat) :
    ((∃ e, load_data split debugFn upsampleFn mit ptb d = Except.error e)
      ↔ ¬(d = "mithb" ∨ d = "ptbdb")) ∧
    ((∃ e, train_vanilla_cnn channels kernel_size cnn_output_size d
        max_epochs = Except.error e)
      ↔ ¬(d = "mithb" ∨ d = "ptbdb")) := by
  by_cases h1 : d = "mithb"
  · simp [load_data, train_vanilla_cnn, h1]
  · by_cases h2 : d = "ptbdb"
    · simp [load_data, train_vanilla_cnn, h1, h2]
    · simp [load_data, train_vanilla_cnn, h1, h2]

/-- Claim C2 counterexample: train_vanilla_cnn on the valid dataset
mithb returns the pair (model, trainer) — the second returned value is
the trainer, not the predictions the claim states. -/
theorem C2_returns_trainer_not_predictions :
    (train_vanilla_cnn [1, 8] 3 5 "mithb" 15).map VanillaRun.ret
      = Except.ok (RetKind.model, RetKind.trainer) ∧
    RetKind.trainer ≠ RetKind.predictions := by
  exact ⟨rfl, by decide⟩

/-- Claim C2 (amended): on a valid dataset name train_vanilla_cnn
returns the trained model together with the trainer, and
AutoencoderTree.predict stores the classifier predictions and
probabilities on the model object, making them available to the
caller. -/
theorem C2_entry_point_outputs {α β γ δ : Type}
    (m : AEPredictState α β γ δ) (channels : List Nat)
    (kernel_size cnn_output_size max_epochs : Nat) (d : String)
    (hd : d = "mithb" ∨ d = "ptbdb") :
    (∃ run, train_vanilla_cnn channels kernel_size cnn_output_size d
        max_epochs = Except.ok run ∧
      run.ret = (RetKind.model, RetKind.trainer)) ∧
    m.predict.y_pred = some (m.clf_predict (m.featurize m.X_test)) ∧
    m.predict.y_pred_proba
      = some (m.clf_predict_proba (m.featurize m.X_test)) := by
  rcases hd with h | h <;> subst h <;> exact ⟨⟨_, rfl, rfl⟩, rfl, rfl⟩

/-- Claim C2 witness at a concrete run and a concrete predict state. -/
theorem C2_entry_point_outputs_witness :
    (∃ run, train_vanilla_cnn [1, 8] 3 5 "mithb" 15 = Except.ok run ∧
      run.ret = (RetKind.model, RetKind.trainer)) ∧
    (AEPredictState.predict
      ⟨id, id, id, 7, none, none⟩ : AEPredictState Nat Nat Nat Nat).y_pred
        = some 7 ∧
    (AEPredictState.predict
      ⟨id, id, id, 7, none, none⟩ : AEPredictState Nat Nat Nat Nat).y_pred_proba
        = some 7 :=
  C2_entry_point_outputs ⟨id, id, id, 7, none, none⟩ [1, 8] 3 5 15 "mithb"
    (Or.inl rfl)

/-- Claim C3 counterexample: the fit call of AutoencoderTree.train
passes no callbacks at all, so no early-stopping patience reaches it,
even though the constant EARLY_STOPPING_PATIENCE = 2 is defined. -/
theorem C3_no_patience_in_ae_fit :
    aeFitArgs.callbacks = [] ∧ EARLY_STOPPING_PATIENCE = 2 :=
  ⟨rfl, rfl⟩

/-- Claim C3 (amended): AutoencoderTree.train passes batch size 128 and
epoch count 3 to its fit call but no early-stopping patience
(EARLY_STOPPING_PATIENCE = 2 is defined yet unused there), and
train_vanilla_cnn configures max_epochs with an EarlyStopping callback
monitoring val_loss in min mode without an explicit patience, batch
sizes 32 (train) and 64 (validation) being set on the data loaders. -/
theorem C3_fit_hyperparameters (channels : List Nat)
    (kernel_size cnn_output_size max_epochs : Nat) :
    aeFitArgs.batch_size = 128 ∧ aeFitArgs.epochs = 3 ∧
    aeFitArgs.shuffle = true ∧ aeFitArgs.callbacks = [] ∧
    EARLY_STOPPING_PATIENCE = 2 ∧
    ∀ d, (d = "mithb" ∨ d = "ptbdb") →
      (train_vanilla_cnn channels kernel_size cnn_output_size d
        max_epochs).map
        (fun r => (r.train_batch_size, r.val_batch_size,
          r.trainer.max_epochs, r.trainer.callbacks))
      = Except.ok (32, 64, max_epochs,
          [{ monitor := "val_loss", mode := "min", patience := none }]) := by
  refine ⟨rfl, rfl, rfl, rfl, rfl, ?_⟩
  rintro d (rfl | rfl) <;> rfl

/-- Claim C3 witness at a concrete call on ptbdb. -/
theorem C3_fit_hyperparameters_witness :
    aeFitArgs.batch_size = 128 ∧ aeFitArgs.epochs = 3 ∧
    EARLY_STOPPING_PATIENCE = 2 ∧
    (train_vanilla_cnn [1, 8] 3 5 "ptbdb" 15).map
      (fun r => (r.train_batch_size, r.val_batch_size,
        r.trainer.max_epochs, r.trainer.callbacks))
    = Except.ok (32, 64, 15,
        [{ monitor := "val_loss", mode := "min", patience := none }]) :=
  have h := C3_fit_hyperparameters [1, 8] 3 5 15
  ⟨h.1, h.2.1, h.2.2.2.2.1, h.2.2.2.2.2 "ptbdb" (Or.inr rfl)⟩

/-- Claim C4: for a channels list of length n ≥ 1 the net of
vanillaCNN.__init__ has exactly 2*(n-1) modules; module 2i is the
Conv1d from channels[i] to channels[i+1] with the given kernel size and
module 2i+1 is a ReLU, for every i < n-1. -/
theorem C4_net_structure (channels : List Nat) (kernel_size n : Nat)
    (hn : channels.length = n) (h1 : 1 ≤ n) :
    (buildNet channels kernel_size).length = 2 * (n - 1) ∧
    ∀ i, i < n - 1 →
      (buildNet channels kernel_size)[2 * i]? =
        some (ModuleKind.conv (channels.getD i 0) (channels.getD (i + 1) 0)
          kernel_size) ∧
      (buildNet channels kernel_size)[2 * i + 1]? = some ModuleKind.relu := by
  subst hn
  refine ⟨pairFlatMap_length _ _ _, fun i hi => ⟨?_, ?_⟩⟩
  · exact pairFlatMap_getElem_even _ _ _ i hi
  · exact pairFlatMap_getElem_odd _ _ _ i hi

/-- Claim C4 witness: channels [1, 16, 8] with kernel size 3 gives the
four modules Conv1d(1, 16, 3), ReLU, Conv1d(16, 8, 3), ReLU. -/
theorem C4_net_structure_witness :
    (buildNet [1, 16, 8] 3).length = 2 * (3 - 1) ∧
    (buildNet [1, 16, 8] 3)[2 * 1]? = some (ModuleKind.conv 16 8 3) ∧
    (buildNet [1, 16, 8] 3)[2 * 1 + 1]? = some ModuleKind.relu :=
  have h := C4_net_structure [1, 16, 8] 3 3 rfl (by decide)
  ⟨h.1, (h.2 1 (by decide)).1, (h.2 1 (by decide)).2⟩

/-- Claim C5: for mithb the stored arrays come from the arrhythmia
loader and for ptbdb from the PTB loader; in each case X_test is the
pre-split test array of that loader padded by one extra zero per sample, and
the stored train and validation arrays together contain exactly the
samples of the padded train array of that loader (as a permutation, since
train_test_split shuffles). -/
theorem C5_dataset_selection {β : Type} (split : SplitFn β)
    (debugFn : DebugFn β) (upsampleFn : UpsampleFn β)
    (mit ptb : LoaderOut β)
    (hsplit : ∀ l : List (Sample × β), ((split l).1 ++ (split l).2).Perm l)
    (hmit : mit.X.length = mit.y.length)
    (hptb : ptb.X.length = ptb.y.length) :
    (∃ d, load_data split debugFn upsampleFn mit ptb "mithb"
        = Except.ok d ∧
      d.X_test = pad mit.X_test ∧ (d.X_train ++ d.X_valid).Perm (pad mit.X)) ∧
    (∃ d, load_data split debugFn upsampleFn mit ptb "ptbdb"
        = Except.ok d ∧
      d.X_test = pad ptb.X_test ∧ (d.X_train ++ d.X_valid).Perm (pad ptb.X)) := by
  have key : ∀ (X : List Sample) (y : List β), X.length = y.length →
      ((split ((pad X).zip y)).1.map Prod.fst
        ++ (split ((pad X).zip y)).2.map Prod.fst).Perm (pad X) := by
    intro X y hXy
    have hlen : (pad X).length ≤ y.length := by simp [pad, hXy]
    have hperm := List.Perm.map Prod.fst (hsplit ((pad X).zip y))
    rw [List.map_append] at hperm
    rwa [List.map_fst_zip _ _ hlen] at hperm
  constructor
  · refine ⟨_, rfl, ?_, ?_⟩
    · simp [loadDataBody, DEBUG, UPSAMPLE]
    · simpa [loadDataBody, DEBUG, UPSAMPLE] using key mit.X mit.y hmit
  · refine ⟨_, rfl, ?_, ?_⟩
    · simp [loadDataBody, DEBUG, UPSAMPLE]
    · simpa [loadDataBody, DEBUG, UPSAMPLE] using key ptb.X ptb.y hptb

/-- Claim C5 witness at concrete loaders and a trivial (but
permutation-preserving) split. -/
theorem C5_dataset_selection_witness :
    (∃ d, load_data (fun l => (l, []))
        (fun a b c d e f => (a, b, c, d, e, f)) (fun a b => (a, b))
        (⟨[[[1]]], [0], [[[2]]], [3]⟩ : LoaderOut Nat)
        ⟨[[[4]]], [1], [[[5]]], [6]⟩ "mithb"
        = Except.ok d ∧
      d.X_test = pad [[[2]]] ∧ (d.X_train ++ d.X_valid).Perm (pad [[[1]]])) ∧
    (∃ d, load_data (fun l => (l, []))
        (fun a b c d e f => (a, b, c, d, e, f)) (fun a b => (a, b))
        (⟨[[[1]]], [0], [[[2]]], [3]⟩ : LoaderOut Nat)
        ⟨[[[4]]], [1], [[[5]]], [6]⟩ "ptbdb"
        = Except.ok d ∧
      d.X_test = pad [[[5]]] ∧ (d.X_train ++ d.X_valid).Perm (pad [[[4]]])) :=
  C5_dataset_selection (fun l => (l, []))
    (fun a b c d e f => (a, b, c, d, e, f)) (fun a b => (a, b))
    (⟨[[[1]]], [0], [[[2]]], [3]⟩ : LoaderOut Nat)
    ⟨[[[4]]], [1], [[[5]]], [6]⟩
    (fun l => by simp) rfl rfl

/-- Claim C6: get_cnn_outputs is batching-invariant: it returns one row
per sample of X, and the concatenation of the per-batch flattened net
outputs equals the flattened net output on all of X at once. -/
theorem C6_batching_invariant (net : List LayerSpec) (X : List (List ℚ)) :
    get_cnn_outputs net X = cnn_outputs_unbatched net X ∧
    (get_cnn_outputs net X).length = X.length := by
  have main : get_cnn_outputs net X = cnn_outputs_unbatched net X := by
    unfold get_cnn_outputs cnn_outputs_unbatched applyNetBatch
    simp only [List.map_map]
    rw [← flatten_batches 64 X, List.map_flatten, flatten_batches]
  refine ⟨main, ?_⟩
  rw [main]
  simp [cnn_outputs_unbatched, applyNetBatch]

/-- Claim C7: the early-stopping training loop never runs more than
max_epochs epochs, and once the monitored val_loss has failed to
improve for the configured patience (the wait counter of the first k+1
monitored values reaches the patience), no further training epochs run:
at most those k+1 epochs are executed. -/
theorem C7_early_stopping_halts (losses : List ℚ)
    (patience max_epochs : Nat) :
    epochsRun losses patience max_epochs ≤ max_epochs ∧
    ∀ k, patience ≤ waitAfter (losses.take (k + 1)) →
      epochsRun losses patience max_epochs ≤ k + 1 := by
  refine ⟨epochsRunAux_le patience losses max_epochs (none, 0), ?_⟩
  intro k hk
  exact epochsRunAux_stop patience losses max_epochs (none, 0) k hk

/-- Claim C7 witness: with constant losses and patience 2 the loop runs
at most 3 epochs even with max_epochs 10. -/
theorem C7_early_stopping_halts_witness :
    epochsRun [1, 1, 1, 1, 1] 2 10 ≤ 10 ∧
    epochsRun [1, 1, 1, 1, 1] 2 10 ≤ 2 + 1 :=
  have h := C7_early_stopping_halts [1, 1, 1, 1, 1] 2 10
  ⟨h.1, h.2 2 (by decide)⟩

/-- Claim C9: the binary case is special-cased consistently: with
no_classes = 2 the linear head has output dimension 1, predict_step
applies a sigmoid yielding values in [0, 1], and the loss is binary
cross-entropy; with no_classes ≠ 2 the head has output dimension
no_classes, predict_step returns the raw output, and the loss is
categorical cross-entropy. -/
theorem C9_binary_special_case (e : ℝ → ℝ) (hpos : ∀ x, 0 < e x)
    (channels : List Nat) (kernel_size output_size n : Nat)
    (pred : List ℝ) :
    (mkVanillaCNN channels kernel_size output_size 2).fc_out = 1 ∧
    (n ≠ 2 → (mkVanillaCNN channels kernel_size output_size n).fc_out = n) ∧
    stepLoss 2 = LossFn.binary_cross_entropy ∧
    (n ≠ 2 → stepLoss n = LossFn.cross_entropy) ∧
    (∀ v ∈ predict_step_out e 2 pred, 0 ≤ v ∧ v ≤ 1) ∧
    (n ≠ 2 → predict_step_out e n pred = pred) := by
  refine ⟨rfl, ?_, rfl, ?_, ?_, ?_⟩
  · intro hn
    simp [mkVanillaCNN, fcOutFeatures, hn]
  · intro hn
    simp [stepLoss, hn]
  · intro v hv
    simp only [predict_step_out, if_true, List.mem_map] at hv
    obtain ⟨x, _, hx⟩ := hv
    subst hx
    have he : 0 < e (-x) := hpos (-x)
    have hden : (0 : ℝ) < 1 + e (-x) := by linarith
    constructor
    · exact le_of_lt (div_pos one_pos hden)
    · rw [sigmoid, div_le_one hden]
      linarith
  · intro hn
    simp [predict_step_out, hn]

/-- Claim C9 witness with the real exponential, at no_classes 5 and the
raw output [0]. -/
theorem C9_binary_special_case_witness :
    (mkVanillaCNN [1, 8] 3 7 2).fc_out = 1 ∧
    (mkVanillaCNN [1, 8] 3 7 5).fc_out = 5 ∧
    stepLoss 2 = LossFn.binary_cross_entropy ∧
    stepLoss 5 = LossFn.cross_entropy ∧
    (∀ v ∈ predict_step_out Real.exp 2 [0], 0 ≤ v ∧ v ≤ 1) ∧
    predict_step_out Real.exp 5 [0] = [0] :=
  have h := C9_binary_special_case Real.exp (fun x => Real.exp_pos x)
    [1, 8] 3 7 5 [0]
  ⟨h.1, h.2.1 (by decide), h.2.2.1, h.2.2.2.1 (by decide),
    h.2.2.2.2.1, h.2.2.2.2.2 (by decide)⟩

/-- Claim C10: forward and training_step mutate their input in place:
after the call the tensor of the caller has gained an extra dimension of
size 1 at axis 1 (its rank grew by one, position 0 is preserved and the
later positions are shifted), so the input is not left unchanged. -/
theorem C10_forward_mutates_input (s : List Nat) (h : 1 ≤ s.length) :
    forwardShapeEffect s ≠ s ∧
    (forwardShapeEffect s).length = s.length + 1 ∧
    (forwardShapeEffect s)[1]? = some 1 ∧
    (forwardShapeEffect s)[0]? = s[0]? ∧
    (∀ j, (forwardShapeEffect s)[j + 2]? = s[j + 1]?) ∧
    trainingStepShapeEffect s = forwardShapeEffect s := by
  obtain ⟨a, t, rfl⟩ : ∃ a t, s = a :: t := by
    cases s with
    | nil => simp at h
    | cons a t => exact ⟨a, t, rfl⟩
  have heff : forwardShapeEffect (a :: t) = a :: 1 :: t := by
    simp [forwardShapeEffect, unsqueezeShape, List.insertIdx]
  refine ⟨?_, ?_, ?_, ?_, ?_, rfl⟩
  · rw [heff]
    intro hcontra
    have := congrArg List.length hcontra
    simp at this
  · rw [heff]; simp
  · rw [heff]; simp
  · rw [heff]; simp
  · intro j
    rw [heff]
    simp

/-- Claim C10 witness at a batch tensor of shape (32, 187). -/
theorem C10_forward_mutates_input_witness :
    forwardShapeEffect [32, 187] ≠ [32, 187] ∧
    (forwardShapeEffect [32, 187]).length = [32, 187].length + 1 ∧
    (forwardShapeEffect [32, 187])[1]? = some 1 :=
  have h := C10_forward_mutates_input [32, 187] (by decide)
  ⟨h.1, h.2.1, h.2.2.1⟩

end ML4H
